import Mathlib

/-
Shallow embedding of the MCP transport of claude-code-go:
  internal/mcp/server.go   (Server, handleRequest and the five method handlers)
  internal/mcp/client.go   (Client, sendRequest, readResponses, nextRequestID)
  internal/tools/registry.go (Registry.Execute)
Request/response envelopes carry Go interface values; the wire format is
encoding/json. Stateful Go methods become explicit state passing; the
file system behind os.ReadFile becomes an explicit oracle argument.
-/

namespace MCP

/-- Fragment of Go dynamic values (the type interface with empty braces) as they
occur in MCP envelopes. vInt models an int64, vStr a string, vBool a bool.
vFloat models a float64 holding the integral value n: encoding/json decodes
every JSON number into a float64, and the ids this program generates are small
integers, represented exactly (a float64 is exact for integers below 2^53;
this embedding does not model rounding of larger integers, which no theorem
below relies on). vArr and vObj model decoded JSON arrays and objects. -/
inductive GoValue where
  | vNull : GoValue
  | vBool (b : Bool) : GoValue
  | vInt (n : Int) : GoValue
  | vFloat (n : Int) : GoValue
  | vStr (s : String) : GoValue
  | vArr (xs : List GoValue) : GoValue
  | vObj (fields : List (String × GoValue)) : GoValue

/-- Go equality on two interface values: true only when the dynamic types are
identical and the values equal. int64 1 and float64 1 are never equal in Go.
Comparing uncomparable dynamic types (slices, maps) panics in Go; it is
modelled as false here, and no execution reached by the theorems below
compares a composite value (wire ids always decode to scalars). -/
def goEq : GoValue → GoValue → Bool
  | .vNull, .vNull => true
  | .vBool a, .vBool b => a == b
  | .vInt a, .vInt b => a == b
  | .vFloat a, .vFloat b => a == b
  | .vStr a, .vStr b => a == b
  | _, _ => false

mutual

/-- Effect of json.Marshal followed by json.Unmarshal into a Go interface
value: an int64 marshals to a JSON number, which unmarshals as float64
(the dynamic type changes); floats, strings, bools, null and containers
keep their shape, with the transformation applied recursively. -/
def wireRoundTripValue : GoValue → GoValue
  | .vNull => .vNull
  | .vBool b => .vBool b
  | .vInt n => .vFloat n
  | .vFloat n => .vFloat n
  | .vStr s => .vStr s
  | .vArr xs => .vArr (wireRoundTripList xs)
  | .vObj fs => .vObj (wireRoundTripFields fs)

/-- wireRoundTripValue on each element of a decoded JSON array. -/
def wireRoundTripList : List GoValue → List GoValue
  | [] => []
  | x :: xs => wireRoundTripValue x :: wireRoundTripList xs

/-- wireRoundTripValue on each value of a decoded JSON object. -/
def wireRoundTripFields : List (String × GoValue) → List (String × GoValue)
  | [] => []
  | (k, v) :: fs => (k, wireRoundTripValue v) :: wireRoundTripFields fs

end

/-- MCPError from server.go: Code int, Message string, Data interface value. -/
structure MCPError where
  code : Int
  message : String
  data : GoValue := .vNull

/-- MCPRequest from server.go: JSONRPC, ID (interface value), Method, Params
(interface value; Go nil, for an absent params field, is vNull). -/
structure MCPRequest where
  jsonrpc : String
  id : GoValue
  method : String
  params : GoValue := .vNull

/-- MCPResponse from server.go: JSONRPC, ID (interface value), Result and
Error both optional (omitempty); Go nil Result is none. -/
structure MCPResponse where
  jsonrpc : String
  id : GoValue
  result : Option GoValue := none
  error : Option MCPError := none

/-- One round trip of an MCPRequest through the json encoder and decoder:
typed string fields survive unchanged, the interface-typed ID and Params
fields go through wireRoundTripValue (numeric ids come back as float64). -/
def wireRoundTripRequest (r : MCPRequest) : MCPRequest :=
  { jsonrpc := r.jsonrpc, id := wireRoundTripValue r.id,
    method := r.method, params := wireRoundTripValue r.params }

/-- One round trip of an MCPError through json: Code and Message are typed
fields (int, string) and survive; Data is an interface field. -/
def wireRoundTripError (e : MCPError) : MCPError :=
  { code := e.code, message := e.message, data := wireRoundTripValue e.data }

/-- One round trip of an MCPResponse through json: presence of Result and of
Error is preserved (omitempty drops only nil), the interface-typed ID and
Result go through wireRoundTripValue. -/
def wireRoundTripResponse (r : MCPResponse) : MCPResponse :=
  { jsonrpc := r.jsonrpc, id := wireRoundTripValue r.id,
    result := r.result.map wireRoundTripValue,
    error := r.error.map wireRoundTripError }

/-- ServerCapabilities from server.go. -/
structure ServerCapabilities where
  tools : Bool
  resources : Bool
  prompts : Bool

/-- Resource from server.go: URI, Name, Description, MimeType, Metadata. -/
structure Resource where
  uri : String
  name : String
  description : String
  mimeType : String
  metadata : List (String × String) := []

/-- One entry of the tools.Registry: a Tool exposes Description, Parameters
and Execute (args is a Go map from string to interface value; Execute returns
a text or an error, modelled as Except with the error string). The name is
the map key in the registry. -/
structure ToolImpl where
  description : String
  parameters : GoValue
  execute : List (String × GoValue) → Except String String

/-- Server from server.go: name, version, the tool registry (map name to
tool), the resource table (map uri to Resource) and the capabilities.
Listener and mutex fields carry no protocol state and are omitted; the
per-request handlers below never touch them. -/
structure ServerState where
  name : String
  version : String
  tools : List (String × ToolImpl)
  resources : List (String × Resource)
  capabilities : ServerCapabilities

/-- Registry.Execute from internal/tools/registry.go: look the name up in the
tool map; a miss yields the error string (tool NAME not found) via
fmt.Errorf; a hit runs the tool. -/
def registryExecute (reg : List (String × ToolImpl)) (name : String)
    (args : List (String × GoValue)) : Except String String :=
  match reg.lookup name with
  | none => .error ("tool " ++ name ++ " not found")
  | some t => t.execute args

/-- CallToolParams from server.go: Name string, Arguments map. -/
structure CallToolParams where
  name : String
  arguments : List (String × GoValue)

/-- The params decode of handleCallTool: the type assertion of req.Params to
a Go map fails on every non-object (including nil, for an absent params
field) and leaves the zero CallToolParams; on an object, the re-marshal and
unmarshal into CallToolParams takes the name field when it is a string and
the arguments field when it is an object, each defaulting to the zero value. -/
def decodeCallToolParams : GoValue → CallToolParams
  | .vObj fields =>
      { name := match fields.lookup "name" with
          | some (.vStr s) => s
          | _ => ""
        arguments := match fields.lookup "arguments" with
          | some (.vObj m) => m
          | _ => [] }
  | _ => { name := "", arguments := [] }

/-- The params decode of handleReadResource: as for decodeCallToolParams but
into ReadResourceParams, whose only field is the uri string. -/
def decodeReadResourceParams : GoValue → String
  | .vObj fields =>
      match fields.lookup "uri" with
      | some (.vStr s) => s
      | _ => ""
  | _ => ""

/-- An error MCPResponse as every error branch of server.go builds it:
jsonrpc 2.0, the request id echoed, no result, the given code and message. -/
def errorResponse (id : GoValue) (code : Int) (message : String) : MCPResponse :=
  { jsonrpc := "2.0", id := id, error := some { code := code, message := message } }

/-- Server.handleInitialize: decodes the params into InitializeParams and
ignores them; always returns the InitializeResult with protocol version
2024-11-05, the server capabilities and the server identity. It writes no
server field, so the state passes through unchanged. Result payloads are
represented in their JSON object shape. -/
def handleInitialize (s : ServerState) (req : MCPRequest) :
    MCPResponse × ServerState :=
  ({ jsonrpc := "2.0", id := req.id,
     result := some (.vObj [
       ("protocolVersion", .vStr "2024-11-05"),
       ("capabilities", .vObj [
         ("tools", .vBool s.capabilities.tools),
         ("resources", .vBool s.capabilities.resources),
         ("prompts", .vBool s.capabilities.prompts)]),
       ("serverInfo", .vObj [
         ("name", .vStr s.name),
         ("version", .vStr s.version)])]) }, s)

/-- Server.handleListTools: snapshots the registry into MCPTool descriptors. -/
def handleListTools (s : ServerState) (req : MCPRequest) :
    MCPResponse × ServerState :=
  ({ jsonrpc := "2.0", id := req.id,
     result := some (.vObj [("tools", .vArr (s.tools.map fun t =>
       .vObj [("name", .vStr t.1), ("description", .vStr t.2.description),
              ("inputSchema", t.2.parameters)]))]) }, s)

/-- Server.handleCallTool: decode the params, run Registry.Execute; an error
becomes code -32602 with message (Tool execution failed: ERR) via
fmt.Sprintf, a success wraps the text into the content array. -/
def handleCallTool (s : ServerState) (req : MCPRequest) :
    MCPResponse × ServerState :=
  let params := decodeCallToolParams req.params
  match registryExecute s.tools params.name params.arguments with
  | .error e =>
      (errorResponse req.id (-32602) ("Tool execution failed: " ++ e), s)
  | .ok text =>
      ({ jsonrpc := "2.0", id := req.id,
         result := some (.vObj [("content", .vArr [
           .vObj [("type", .vStr "text"), ("text", .vStr text)]])]) }, s)

/-- Server.handleListResources: snapshots the resource table. -/
def handleListResources (s : ServerState) (req : MCPRequest) :
    MCPResponse × ServerState :=
  ({ jsonrpc := "2.0", id := req.id,
     result := some (.vObj [("resources", .vArr (s.resources.map fun r =>
       .vObj [("uri", .vStr r.2.uri), ("name", .vStr r.2.name),
              ("description", .vStr r.2.description),
              ("mimeType", .vStr r.2.mimeType)]))]) }, s)

/-- Server.handleReadResource: decode the uri, look it up in the resource
table; a miss is -32602 Resource not found. For mime type text/plain OR
application/octet-stream the code calls os.ReadFile on the uri (the file
system is the oracle argument fs): a read error is -32602 with message
(Failed to read resource: ERR), a success returns the contents array with
the bytes as text. Every other mime type is -32602 Unsupported resource
type. -/
def handleReadResource (fs : String → Except String String)
    (s : ServerState) (req : MCPRequest) : MCPResponse × ServerState :=
  let uri := decodeReadResourceParams req.params
  match s.resources.lookup uri with
  | none => (errorResponse req.id (-32602) "Resource not found", s)
  | some r =>
      if r.mimeType = "text/plain" || r.mimeType = "application/octet-stream" then
        match fs r.uri with
        | .error e =>
            (errorResponse req.id (-32602) ("Failed to read resource: " ++ e), s)
        | .ok content =>
            ({ jsonrpc := "2.0", id := req.id,
               result := some (.vObj [("contents", .vArr [
                 .vObj [("uri", .vStr r.uri), ("mimeType", .vStr r.mimeType),
                        ("text", .vStr content)]])]) }, s)
      else (errorResponse req.id (-32602) "Unsupported resource type", s)

/-- Server.handleRequest: the string switch on the method; an unknown method
is -32601 Method not found with the request id echoed. -/
def handleRequest (fs : String → Except String String)
    (s : ServerState) (req : MCPRequest) : MCPResponse × ServerState :=
  match req.method with
  | "initialize" => handleInitialize s req
  | "tools/list" => handleListTools s req
  | "tools/call" => handleCallTool s req
  | "resources/list" => handleListResources s req
  | "resources/read" => handleReadResource fs s req
  | _ => (errorResponse req.id (-32601) "Method not found", s)

/-- Server.handleConnection: the per-connection loop. The decoded stream is
the list of decoder results, none standing for a decode failure or stream
end, which stops the loop; each decoded request is dispatched and its one
response appended, then the loop reads on. (Encoding a response of this
shape never fails.) -/
def handleConnection (fs : String → Except String String) :
    ServerState → List (Option MCPRequest) → List MCPResponse
  | _, [] => []
  | _, none :: _ => []
  | s, some req :: rest =>
      let r := handleRequest fs s req
      r.1 :: handleConnection fs r.2 rest

/-- Server.RegisterResource: insert or replace under the uri key. -/
def registerResource (s : ServerState) (uri name description mimeType : String)
    (metadata : List (String × String)) : ServerState :=
  { s with resources :=
      (uri, { uri := uri, name := name, description := description,
              mimeType := mimeType, metadata := metadata })
        :: s.resources.filter fun kv => !(kv.1 == uri) }

/-- Two-complement wrap of an integer into the int64 range, the behaviour of
Go int64 arithmetic on overflow. -/
def int64Wrap (n : Int) : Int := (n + 2 ^ 63) % 2 ^ 64 - 2 ^ 63

/-- Client.nextRequestID from client.go: atomic.AddInt64 of 1 to the counter,
returning the incremented value. The generated id enters the request as an
int64 interface value. -/
def nextRequestID (counter : Int) : Int := int64Wrap (counter + 1)

/-- The contents of one pending-call slot: the capacity-1 response channel of
one in-flight call, empty (none) until a response is delivered into it. -/
abbrev Slot := Option MCPResponse

/-- The pending-call table of the Client: the Go map from interface-valued
request id to response channel. Entries are unique up to goEq by
construction (insertSlot replaces). -/
abbrev PendingTable := List (GoValue × Slot)

/-- Go map read on the pending table: the entry whose key Go-equals the id. -/
def lookupSlot (tbl : PendingTable) (id : GoValue) : Option Slot :=
  (tbl.find? fun kv => goEq kv.1 id).map Prod.snd

/-- Go map delete on the pending table. -/
def eraseSlot (tbl : PendingTable) (id : GoValue) : PendingTable :=
  tbl.filter fun kv => !(goEq kv.1 id)

/-- Go map insert of a fresh empty channel under the id (replacing any entry
under an equal key, as a Go map write does). -/
def insertSlot (tbl : PendingTable) (id : GoValue) : PendingTable :=
  (id, none) :: eraseSlot tbl id

/-- The nonblocking send into a capacity-1 channel (the select with a default
branch in readResponses): fills an empty slot, is dropped on a full one. -/
def fillSlot : Slot → MCPResponse → Slot
  | none, r => some r
  | some r0, _ => some r0

/-- One iteration of Client.readResponses on a decoded response: look its id
up in the pending table and, when an entry exists, nonblocking-send the
response into that channel; otherwise do nothing. Updating every goEq-equal
key is the same map write, since keys are unique up to goEq. -/
def deliverStep (tbl : PendingTable) (resp : MCPResponse) : PendingTable :=
  tbl.map fun kv => if goEq kv.1 resp.id then (kv.1, fillSlot kv.2 resp) else kv

/-- Client.readResponses over a whole list of decoded responses: the loop
delivers each in order and never stops or reports an error on an unmatched
one. -/
def readLoop (tbl : PendingTable) (incoming : List MCPResponse) : PendingTable :=
  incoming.foldl deliverStep tbl

/-- Client.sendRequest, as one sequential trace: register the fresh channel
under req.ID before writing the request; while the caller blocks in the
select, the read loop delivers the responses in incoming; the caller then
takes the channel value if one arrived, and otherwise hits the 30 second
timeout branch; the deferred delete removes the table entry on both paths.
Returned are the call outcome (the Go (MCPResponse, error) pair as an
Except) and the table the call leaves behind. -/
def sendRequest (tbl : PendingTable) (req : MCPRequest)
    (incoming : List MCPResponse) :
    Except String MCPResponse × PendingTable :=
  let t2 := readLoop (insertSlot tbl req.id) incoming
  let outcome : Except String MCPResponse :=
    match lookupSlot t2 req.id with
    | some (some r) => .ok r
    | _ => .error "request timeout"
  (outcome, eraseSlot t2 req.id)

/-! Concrete inputs used by the closed theorems and witnesses below. -/

/-- A file system oracle whose every read succeeds with the bytes BLOB. -/
def sampleFs : String → Except String String := fun _ => .ok "BLOB"

/-- A file system oracle whose every read fails. -/
def failFs : String → Except String String := fun _ => .error "no such file"

/-- A server with an empty tool registry and an empty resource table, the
capabilities NewMCPServer installs. -/
def srvBase : ServerState :=
  { name := "srv", version := "0.1.0", tools := [], resources := [],
    capabilities := { tools := true, resources := true, prompts := false } }

/-- A registered resource whose mime type is application/octet-stream. -/
def octetResource : Resource :=
  { uri := "/tmp/blob", name := "blob", description := "a binary file",
    mimeType := "application/octet-stream" }

/-- srvBase with octetResource registered. -/
def srvOctet : ServerState :=
  { srvBase with resources := [("/tmp/blob", octetResource)] }

/-- A tool whose Name method returns the empty string; Registry.Register
files it under the key empty string. -/
def emptyNameTool : ToolImpl :=
  { description := "a tool registered under the empty name",
    parameters := .vNull, execute := fun _ => .ok "ran" }

/-- srvBase with emptyNameTool registered. -/
def srvEmptyNameTool : ServerState :=
  { srvBase with tools := [("", emptyNameTool)] }

/-- The first request a fresh client issues: id is the int64 the first
nextRequestID call returns. -/
def reqListTools : MCPRequest :=
  { jsonrpc := "2.0", id := .vInt (nextRequestID 0), method := "tools/list" }

/-- The reply to reqListTools as the read loop of the client decodes it: the
id was produced as int64, JSON-decoded by the server, echoed back and
JSON-decoded by the client, so it crossed the wire twice. -/
def replyListTools : MCPResponse :=
  { jsonrpc := "2.0",
    id := wireRoundTripValue (wireRoundTripValue (.vInt (nextRequestID 0))),
    result := some (.vObj [("tools", .vArr [])]) }

/-- A response carrying a result. -/
def respOkSample : MCPResponse :=
  { jsonrpc := "2.0", id := .vInt 2,
    result := some (.vObj [("content", .vArr [])]) }

/-- A response carrying an error. -/
def respErrSample : MCPResponse :=
  { jsonrpc := "2.0", id := .vInt 3,
    error := some { code := -32601, message := "Method not found" } }

/-- A resources/read request for the registered octet-stream resource. -/
def reqReadOctet : MCPRequest :=
  { jsonrpc := "2.0", id := .vInt 7, method := "resources/read",
    params := .vObj [("uri", .vStr "/tmp/blob")] }

/-- A tools/call request naming a tool absent from every registry below. -/
def reqCallMissing : MCPRequest :=
  { jsonrpc := "2.0", id := .vInt 3, method := "tools/call",
    params := .vObj [("name", .vStr "no_such_tool")] }

/-- A request whose method is none of the five recognized ones. -/
def reqUnknownMethod : MCPRequest :=
  { jsonrpc := "2.0", id := .vInt 4, method := "prompts/list" }

/-- A tools/call request whose params field is absent (Go nil). -/
def reqCallNilParams : MCPRequest :=
  { jsonrpc := "2.0", id := .vInt 9, method := "tools/call" }

/-- A resources/read request whose params field is absent (Go nil). -/
def reqReadNilParams : MCPRequest :=
  { jsonrpc := "2.0", id := .vInt 10, method := "resources/read" }

/-! Helper lemmas on Go interface equality and the pending-call table. -/

lemma goEq_eq_of_eq_true {x y : GoValue} (h : goEq x y = true) : x = y := by
  cases x <;> cases y <;> simp_all [goEq]

lemma lookupSlot_cons (kv : GoValue × Slot) (tbl : PendingTable) (id : GoValue) :
    lookupSlot (kv :: tbl) id =
      if goEq kv.1 id then some kv.2 else lookupSlot tbl id := by
  cases h : goEq kv.1 id
  · simp [lookupSlot, List.find?_cons_of_neg, h]
  · simp [lookupSlot, List.find?_cons_of_pos, h]

lemma eraseSlot_cons (kv : GoValue × Slot) (tbl : PendingTable) (id : GoValue) :
    eraseSlot (kv :: tbl) id =
      if goEq kv.1 id then eraseSlot tbl id else kv :: eraseSlot tbl id := by
  cases h : goEq kv.1 id <;> simp [eraseSlot, List.filter_cons, h]

lemma deliverStep_cons (kv : GoValue × Slot) (tbl : PendingTable) (resp : MCPResponse) :
    deliverStep (kv :: tbl) resp =
      (if goEq kv.1 resp.id then (kv.1, fillSlot kv.2 resp) else kv)
        :: deliverStep tbl resp := rfl

lemma eraseSlot_eq_of_not_found {tbl : PendingTable} {id : GoValue}
    (h : lookupSlot tbl id = none) : eraseSlot tbl id = tbl := by
  induction tbl with
  | nil => rfl
  | cons kv rest ih =>
      rw [lookupSlot_cons] at h
      rw [eraseSlot_cons]
      cases hk : goEq kv.1 id
      · simp only [hk] at h ⊢
        simp only [Bool.false_eq_true, if_false] at h ⊢
        rw [ih h]
      · simp [hk] at h

lemma eraseSlot_idem (tbl : PendingTable) (id : GoValue) :
    eraseSlot (eraseSlot tbl id) id = eraseSlot tbl id := by
  induction tbl with
  | nil => rfl
  | cons kv rest ih =>
      cases hk : goEq kv.1 id <;> simp [eraseSlot_cons, hk, ih]

lemma deliverStep_not_found {tbl : PendingTable} {resp : MCPResponse}
    (h : lookupSlot tbl resp.id = none) : deliverStep tbl resp = tbl := by
  induction tbl with
  | nil => rfl
  | cons kv rest ih =>
      rw [lookupSlot_cons] at h
      rw [deliverStep_cons]
      cases hk : goEq kv.1 resp.id
      · simp only [hk, Bool.false_eq_true, if_false] at h ⊢
        rw [ih h]
      · simp [hk] at h

lemma lookupSlot_deliverStep (tbl : PendingTable) (r : MCPResponse) (id : GoValue) :
    lookupSlot (deliverStep tbl r) id =
      (lookupSlot tbl id).map
        (fun s => if goEq id r.id then fillSlot s r else s) := by
  induction tbl with
  | nil => rfl
  | cons kv rest ih =>
      rw [deliverStep_cons, lookupSlot_cons, lookupSlot_cons]
      have hkey : (if goEq kv.1 r.id then (kv.1, fillSlot kv.2 r) else kv).1 = kv.1 := by
        split <;> rfl
      rw [hkey]
      cases hk : goEq kv.1 id
      · simp only [hk, Bool.false_eq_true, if_false]
        exact ih
      · have he : kv.1 = id := goEq_eq_of_eq_true hk
        simp only [hk, if_true]
        rw [he]
        cases hr2 : goEq id r.id <;> simp [hr2]

lemma lookupSlot_readLoop (rs : List MCPResponse) (tbl : PendingTable) (id : GoValue) :
    lookupSlot (readLoop tbl rs) id =
      (lookupSlot tbl id).map
        (fun s => rs.foldl (fun acc r => if goEq id r.id then fillSlot acc r else acc) s) := by
  induction rs generalizing tbl with
  | nil =>
      have h0 : readLoop tbl [] = tbl := rfl
      rw [h0]
      cases lookupSlot tbl id <;> simp
  | cons r rest ih =>
      have hstep : readLoop tbl (r :: rest) = readLoop (deliverStep tbl r) rest := rfl
      rw [hstep, ih, lookupSlot_deliverStep]
      cases lookupSlot tbl id <;> simp

lemma foldl_fillSlot_some (rs : List MCPResponse) (id : GoValue) (r0 : MCPResponse) :
    rs.foldl (fun acc r => if goEq id r.id then fillSlot acc r else acc) (some r0) = some r0 := by
  induction rs with
  | nil => rfl
  | cons r rest ih =>
      rw [List.foldl_cons]
      cases h : goEq id r.id
      · simp only [h, Bool.false_eq_true, if_false]
        exact ih
      · simp only [h, if_true, fillSlot]
        exact ih

lemma foldl_fillSlot_none (rs : List MCPResponse) (id : GoValue) :
    rs.foldl (fun acc r => if goEq id r.id then fillSlot acc r else acc) none =
      rs.find? (fun r => goEq id r.id) := by
  induction rs with
  | nil => rfl
  | cons r rest ih =>
      cases h : goEq id r.id
      · have hf : List.find? (fun r => goEq id r.id) (r :: rest) =
            List.find? (fun r => goEq id r.id) rest := by
          simp [List.find?_cons_of_neg, h]
        rw [hf, List.foldl_cons]
        simp only [h, Bool.false_eq_true, if_false]
        exact ih
      · have hf : List.find? (fun r => goEq id r.id) (r :: rest) = some r := by
          simp [List.find?_cons_of_pos, h]
        rw [hf, List.foldl_cons]
        simp only [h, if_true, fillSlot]
        exact foldl_fillSlot_some rest id r

lemma eraseSlot_deliverStep (tbl : PendingTable) (r : MCPResponse) (id : GoValue) :
    eraseSlot (deliverStep tbl r) id = deliverStep (eraseSlot tbl id) r := by
  induction tbl with
  | nil => rfl
  | cons kv rest ih =>
      cases hk : goEq kv.1 id <;> cases hr : goEq kv.1 r.id <;>
        simp [deliverStep_cons, eraseSlot_cons, hk, hr, ih]

lemma eraseSlot_readLoop (rs : List MCPResponse) (tbl : PendingTable) (id : GoValue) :
    eraseSlot (readLoop tbl rs) id = readLoop (eraseSlot tbl id) rs := by
  induction rs generalizing tbl with
  | nil => rfl
  | cons r rest ih =>
      have h1 : readLoop tbl (r :: rest) = readLoop (deliverStep tbl r) rest := rfl
      have h2 : readLoop (eraseSlot tbl id) (r :: rest) =
          readLoop (deliverStep (eraseSlot tbl id) r) rest := rfl
      rw [h1, h2, ih, eraseSlot_deliverStep]

lemma readLoop_length (rs : List MCPResponse) (tbl : PendingTable) :
    (readLoop tbl rs).length = tbl.length := by
  induction rs generalizing tbl with
  | nil => rfl
  | cons r rest ih =>
      have h1 : readLoop tbl (r :: rest) = readLoop (deliverStep tbl r) rest := rfl
      rw [h1, ih]
      simp [deliverStep]

lemma eraseSlot_insertSlot (tbl : PendingTable) {id : GoValue}
    (hc : goEq id id = true) : eraseSlot (insertSlot tbl id) id = eraseSlot tbl id := by
  rw [insertSlot, eraseSlot_cons]
  simp [hc, eraseSlot_idem]

lemma lookupSlot_insertSlot_self (tbl : PendingTable) {id : GoValue}
    (hc : goEq id id = true) : lookupSlot (insertSlot tbl id) id = some none := by
  rw [insertSlot, lookupSlot_cons]
  simp [hc]

/-! Helper lemmas on the server dispatch. -/

lemma handleRequest_eq_initialize {fs : String → Except String String}
    {s : ServerState} {req : MCPRequest} (h : req.method = "initialize") :
    handleRequest fs s req = handleInitialize s req := by
  unfold handleRequest
  split <;> simp_all

lemma handleRequest_eq_callTool {fs : String → Except String String}
    {s : ServerState} {req : MCPRequest} (h : req.method = "tools/call") :
    handleRequest fs s req = handleCallTool s req := by
  unfold handleRequest
  split <;> simp_all

lemma handleRequest_eq_readResource {fs : String → Except String String}
    {s : ServerState} {req : MCPRequest} (h : req.method = "resources/read") :
    handleRequest fs s req = handleReadResource fs s req := by
  unfold handleRequest
  split <;> simp_all

lemma handleCallTool_id {s : ServerState} {req : MCPRequest} :
    (handleCallTool s req).1.id = req.id := by
  simp only [handleCallTool]
  split <;> rfl

lemma handleReadResource_id {fs : String → Except String String}
    {s : ServerState} {req : MCPRequest} :
    (handleReadResource fs s req).1.id = req.id := by
  simp only [handleReadResource]
  split
  · rfl
  · split
    · split <;> rfl
    · rfl

lemma handleReadResource_state {fs : String → Except String String}
    {s : ServerState} {req : MCPRequest} :
    (handleReadResource fs s req).2 = s := by
  simp only [handleReadResource]
  split
  · rfl
  · split
    · split <;> rfl
    · rfl

/-! The claim theorems. -/

/-- C1: the claim says that for a client-generated id (an int64 produced by
nextRequestID) and the same request's response after JSON encode and decode,
the lookup in the pending-call table succeeds and the caller receives its
response. The code disagrees: nextRequestID stores the id as int64, the
response id decodes as float64 with the same numeric value, Go interface
equality over the map keys rejects the pair, the read loop drops the
response and sendRequest times out. This theorem evaluates the embedded
code at that failing input. -/
theorem correlator_lookup_fails_on_decoded_id :
    reqListTools.id = GoValue.vInt 1
    ∧ replyListTools.id = GoValue.vFloat 1
    ∧ goEq (GoValue.vInt 1) (GoValue.vFloat 1) = false
    ∧ lookupSlot (insertSlot [] reqListTools.id) replyListTools.id = none
    ∧ deliverStep (insertSlot [] reqListTools.id) replyListTools =
        insertSlot [] reqListTools.id
    ∧ sendRequest [] reqListTools [replyListTools] =
        (.error "request timeout", []) :=
  ⟨rfl, rfl, rfl, rfl, rfl, rfl⟩

/-- C2: the claim says the envelope codec is lossless, preserving the type
and exact value of numeric ids. The code disagrees: a Request or Response
whose id is an int64 comes back from the json round trip with a float64 id,
so decoding does not reconstruct the original. The result-against-error
distinction is preserved. -/
theorem envelope_codec_id_type_not_preserved :
    reqListTools.id = GoValue.vInt 1
    ∧ (wireRoundTripRequest reqListTools).id = GoValue.vFloat 1
    ∧ wireRoundTripRequest reqListTools ≠ reqListTools
    ∧ (wireRoundTripResponse respOkSample).result.isSome = true
    ∧ (wireRoundTripResponse respOkSample).error = none
    ∧ (wireRoundTripResponse respErrSample).error = respErrSample.error
    ∧ (wireRoundTripResponse respErrSample).result = none
    ∧ wireRoundTripResponse respErrSample ≠ respErrSample := by
  refine ⟨rfl, rfl, ?_, rfl, rfl, rfl, rfl, ?_⟩
  · intro hcontra
    have h1 : (wireRoundTripRequest reqListTools).id = GoValue.vFloat 1 := rfl
    rw [hcontra] at h1
    simp [reqListTools] at h1
  · intro hcontra
    have h1 : (wireRoundTripResponse respErrSample).id = GoValue.vFloat 3 := rfl
    rw [hcontra] at h1
    simp [respErrSample] at h1

/-- C3 counterexample: the claim says a registered resource whose mime type
is not text-like yields the error Unsupported resource type with code
-32602; but for the registered mime type application/octet-stream the code
reads the file and answers with a result, not an error. -/
theorem resources_read_octet_stream_counterexample :
    octetResource.mimeType = "application/octet-stream"
    ∧ (handleRequest sampleFs srvOctet reqReadOctet).1.error = none
    ∧ (handleRequest sampleFs srvOctet reqReadOctet).1.result.isSome = true
    ∧ (handleRequest sampleFs srvOctet reqReadOctet).1 ≠
        errorResponse reqReadOctet.id (-32602) "Unsupported resource type" := by
  refine ⟨rfl, rfl, rfl, ?_⟩
  intro hcontra
  have h1 : (handleRequest sampleFs srvOctet reqReadOctet).1.error = none := rfl
  rw [hcontra] at h1
  simp [errorResponse] at h1

/-- C3 (amended): resources/read answers Resource not found (-32602) for an
unregistered uri; for a registered resource with mime type text/plain or
application/octet-stream it reads the file and returns the contents array on
success and Failed to read resource (-32602) on a read error; every other
mime type gets Unsupported resource type (-32602); the server state is
unchanged. -/
theorem resources_read_dispatch_cases (fs : String → Except String String)
    (s : ServerState) (req : MCPRequest) (uri : String)
    (hm : req.method = "resources/read")
    (hu : decodeReadResourceParams req.params = uri) :
    (s.resources.lookup uri = none →
        (handleRequest fs s req).1 = errorResponse req.id (-32602) "Resource not found")
    ∧ (∀ r, s.resources.lookup uri = some r →
        ((r.mimeType = "text/plain" ∨ r.mimeType = "application/octet-stream") →
            (∀ content, fs r.uri = .ok content →
              (handleRequest fs s req).1 =
                { jsonrpc := "2.0", id := req.id,
                  result := some (.vObj [("contents", .vArr [
                    .vObj [("uri", .vStr r.uri), ("mimeType", .vStr r.mimeType),
                           ("text", .vStr content)]])]),
                  error := none })
            ∧ (∀ e, fs r.uri = .error e →
              (handleRequest fs s req).1 =
                errorResponse req.id (-32602) ("Failed to read resource: " ++ e)))
        ∧ (r.mimeType ≠ "text/plain" → r.mimeType ≠ "application/octet-stream" →
            (handleRequest fs s req).1 =
              errorResponse req.id (-32602) "Unsupported resource type"))
    ∧ (handleRequest fs s req).2 = s := by
  have hd : handleRequest fs s req = handleReadResource fs s req :=
    handleRequest_eq_readResource hm
  refine ⟨?_, ?_, ?_⟩
  · intro hnone
    rw [hd]
    simp only [handleReadResource, hu, hnone]
  · intro r hr
    refine ⟨fun hmime => ⟨?_, ?_⟩, ?_⟩
    · intro content hok
      rw [hd]
      simp only [handleReadResource, hu, hr]
      rcases hmime with hm1 | hm1 <;> simp [hm1, hok]
    · intro e herr
      rw [hd]
      simp only [handleReadResource, hu, hr]
      rcases hmime with hm1 | hm1 <;> simp [hm1, herr]
    · intro h1 h2
      rw [hd]
      simp only [handleReadResource, hu, hr]
      simp [h1, h2]
  · rw [hd]
    exact handleReadResource_state

/-- C3 witness: the amended theorem applied to the octet-stream scenario. -/
theorem resources_read_dispatch_cases_witness :
    decodeReadResourceParams reqReadOctet.params = "/tmp/blob"
    ∧ (handleRequest sampleFs srvOctet reqReadOctet).1 =
        { jsonrpc := "2.0", id := reqReadOctet.id,
          result := some (.vObj [("contents", .vArr [
            .vObj [("uri", .vStr "/tmp/blob"),
                   ("mimeType", .vStr "application/octet-stream"),
                   ("text", .vStr "BLOB")]])]),
          error := none }
    ∧ (handleRequest sampleFs srvOctet reqReadOctet).2 = srvOctet :=
  have h := resources_read_dispatch_cases sampleFs srvOctet reqReadOctet "/tmp/blob" rfl rfl
  ⟨rfl, ((h.2.1 octetResource rfl).1 (Or.inr rfl)).1 "BLOB" rfl, h.2.2⟩

/-- C4: the pending-call table entry of a call is inserted before the write
and removed exactly once by return on both the response path and the timeout
path: afterwards the table holds no entry under the call id and its size is
back to the pre-call baseline; against a server that never responds the call
returns the timeout error and the table is exactly the baseline; and the
outcome of the call is decided by the first incoming response whose id
matches, every later matching response being dropped by the full
capacity-1 slot. -/
theorem send_request_pending_table_lifecycle (tbl : PendingTable)
    (req : MCPRequest) (incoming : List MCPResponse)
    (hc : goEq req.id req.id = true)
    (h : lookupSlot tbl req.id = none) :
    lookupSlot (sendRequest tbl req incoming).2 req.id = none
    ∧ (sendRequest tbl req incoming).2.length = tbl.length
    ∧ (incoming = [] → (sendRequest tbl req incoming).2 = tbl
        ∧ (sendRequest tbl req incoming).1 = .error "request timeout")
    ∧ (sendRequest tbl req incoming).1 =
        (match incoming.find? (fun r => goEq req.id r.id) with
         | some r => .ok r
         | none => .error "request timeout") := by
  have hfinal : (sendRequest tbl req incoming).2 = readLoop tbl incoming := by
    simp only [sendRequest]
    rw [eraseSlot_readLoop, eraseSlot_insertSlot tbl hc, eraseSlot_eq_of_not_found h]
  have hlook2 : lookupSlot (readLoop (insertSlot tbl req.id) incoming) req.id =
      some (incoming.find? (fun r => goEq req.id r.id)) := by
    rw [lookupSlot_readLoop, lookupSlot_insertSlot_self tbl hc]
    simp [foldl_fillSlot_none]
  refine ⟨?_, ?_, ?_, ?_⟩
  · rw [hfinal, lookupSlot_readLoop, h]
    rfl
  · rw [hfinal, readLoop_length]
  · intro he
    subst he
    constructor
    · rw [hfinal]
      rfl
    · simp only [sendRequest]
      have h0 : readLoop (insertSlot tbl req.id) [] = insertSlot tbl req.id := rfl
      rw [h0, lookupSlot_insertSlot_self tbl hc]
  · simp only [sendRequest]
    rw [hlook2]
    cases incoming.find? (fun r => goEq req.id r.id) <;> rfl

/-- C4 witness: a single call on a fresh client against a server that never
responds: the call times out and the table is empty again. -/
theorem send_request_pending_table_lifecycle_witness :
    goEq reqListTools.id reqListTools.id = true
    ∧ lookupSlot [] reqListTools.id = none
    ∧ lookupSlot (sendRequest [] reqListTools []).2 reqListTools.id = none
    ∧ (sendRequest [] reqListTools []).2 = []
    ∧ (sendRequest [] reqListTools []).1 = .error "request timeout" :=
  have h := send_request_pending_table_lifecycle [] reqListTools [] rfl rfl
  ⟨rfl, rfl, h.1, (h.2.2.1 rfl).1, (h.2.2.1 rfl).2⟩

/-- C5: tools/call with a name absent from the registry yields the -32602
error whose message wraps the underlying registry failure text, the
state is unchanged, and dispatch is a total function (no panic). -/
theorem call_tool_missing_tool_error (fs : String → Except String String)
    (s : ServerState) (req : MCPRequest) (name : String)
    (hm : req.method = "tools/call")
    (hname : (decodeCallToolParams req.params).name = name)
    (hmiss : s.tools.lookup name = none) :
    (handleRequest fs s req).1 =
      errorResponse req.id (-32602)
        ("Tool execution failed: " ++ ("tool " ++ name ++ " not found"))
    ∧ (∃ pre, ("Tool execution failed: " ++ ("tool " ++ name ++ " not found")) =
        pre ++ ("tool " ++ name ++ " not found"))
    ∧ (handleRequest fs s req).2 = s := by
  have hexec : registryExecute s.tools (decodeCallToolParams req.params).name
      (decodeCallToolParams req.params).arguments =
        .error ("tool " ++ name ++ " not found") := by
    unfold registryExecute
    rw [hname, hmiss]
  have hd : handleRequest fs s req = handleCallTool s req := handleRequest_eq_callTool hm
  have h1 : handleCallTool s req =
      (errorResponse req.id (-32602)
        ("Tool execution failed: " ++ ("tool " ++ name ++ " not found")), s) := by
    simp only [handleCallTool, hexec]
  rw [hd, h1]
  exact ⟨rfl, ⟨"Tool execution failed: ", rfl⟩, rfl⟩

/-- C5 witness: calling the missing tool no_such_tool on a server with an
empty registry. -/
theorem call_tool_missing_tool_error_witness :
    reqCallMissing.method = "tools/call"
    ∧ (decodeCallToolParams reqCallMissing.params).name = "no_such_tool"
    ∧ srvBase.tools.lookup "no_such_tool" = none
    ∧ (handleRequest sampleFs srvBase reqCallMissing).1 =
        errorResponse reqCallMissing.id (-32602)
          ("Tool execution failed: " ++ ("tool " ++ "no_such_tool" ++ " not found")) :=
  ⟨rfl, rfl, rfl,
    (call_tool_missing_tool_error sampleFs srvBase reqCallMissing "no_such_tool"
      rfl rfl rfl).1⟩

/-- C6: initialize always returns the protocol version, the server
capabilities and the server identity as a successful result with no error,
leaves the server state unchanged, and, being a function of the state and
the request id only, gives the same answer no matter its params, how often
or in which order it is called. -/
theorem initialize_idempotent_and_stateless (s : ServerState) (req : MCPRequest) :
    handleInitialize s req =
      ({ jsonrpc := "2.0", id := req.id,
         result := some (.vObj [
           ("protocolVersion", .vStr "2024-11-05"),
           ("capabilities", .vObj [
             ("tools", .vBool s.capabilities.tools),
             ("resources", .vBool s.capabilities.resources),
             ("prompts", .vBool s.capabilities.prompts)]),
           ("serverInfo", .vObj [
             ("name", .vStr s.name),
             ("version", .vStr s.version)])]),
         error := none }, s)
    ∧ (∀ p, handleInitialize s { req with params := p } =
        ({ (handleInitialize s req).1 with id := req.id }, s))
    ∧ handleInitialize (handleInitialize s req).2 req = handleInitialize s req :=
  ⟨rfl, fun _ => rfl, rfl⟩

/-- C7: for every request with one of the five recognized methods, the
response the dispatch produces echoes the request id. -/
theorem response_id_echoes_request_id (fs : String → Except String String)
    (s : ServerState) (req : MCPRequest)
    (_h : req.method ∈ ["initialize", "tools/list", "tools/call",
      "resources/list", "resources/read"]) :
    (handleRequest fs s req).1.id = req.id := by
  unfold handleRequest
  split
  · rfl
  · rfl
  · exact handleCallTool_id
  · rfl
  · exact handleReadResource_id
  · rfl

/-- C7 witness: the id echo at the initialize request of the handshake. -/
theorem response_id_echoes_request_id_witness :
    reqListTools.method ∈ ["initialize", "tools/list", "tools/call",
      "resources/list", "resources/read"]
    ∧ (handleRequest sampleFs srvBase reqListTools).1.id = reqListTools.id :=
  ⟨by simp [reqListTools],
    response_id_echoes_request_id sampleFs srvBase reqListTools (by simp [reqListTools])⟩

/-- C8: a response whose id has no entry in the pending-call table is
discarded silently: the read loop step leaves the table exactly as it was,
no slot is touched, and the loop goes on to the next response. -/
theorem unmatched_response_discarded (tbl : PendingTable) (resp : MCPResponse)
    (h : lookupSlot tbl resp.id = none) :
    deliverStep tbl resp = tbl
    ∧ ∀ rest, readLoop tbl (resp :: rest) = readLoop tbl rest := by
  have h1 : deliverStep tbl resp = tbl := deliverStep_not_found h
  refine ⟨h1, fun rest => ?_⟩
  have h2 : readLoop tbl (resp :: rest) = readLoop (deliverStep tbl resp) rest := rfl
  rw [h2, h1]

/-- C8 witness: the response whose int64 id became float64 on the wire is
not found in a table keyed by the int64 id and leaves it unchanged. -/
theorem unmatched_response_discarded_witness :
    lookupSlot (insertSlot [] (GoValue.vInt 1)) replyListTools.id = none
    ∧ deliverStep (insertSlot [] (GoValue.vInt 1)) replyListTools =
        insertSlot [] (GoValue.vInt 1) :=
  ⟨rfl, (unmatched_response_discarded (insertSlot [] (GoValue.vInt 1)) replyListTools rfl).1⟩

/-- C9: an unrecognized method gets the -32601 Method not found error with
the request id echoed and the state unchanged, and the per-connection loop
does not stop: the responses to the rest of the stream follow. -/
theorem unknown_method_error_and_loop_continues
    (fs : String → Except String String) (s : ServerState) (req : MCPRequest)
    (rest : List (Option MCPRequest))
    (h : req.method ∉ ["initialize", "tools/list", "tools/call",
      "resources/list", "resources/read"]) :
    handleRequest fs s req = (errorResponse req.id (-32601) "Method not found", s)
    ∧ handleConnection fs s (some req :: rest) =
        errorResponse req.id (-32601) "Method not found" :: handleConnection fs s rest := by
  have h1 : handleRequest fs s req =
      (errorResponse req.id (-32601) "Method not found", s) := by
    unfold handleRequest
    split <;> simp_all
  refine ⟨h1, ?_⟩
  simp only [handleConnection, h1]

/-- C9 witness: the unrecognized method prompts/list answered mid-stream,
with the loop going on to serve the following tools/call request. -/
theorem unknown_method_error_and_loop_continues_witness :
    reqUnknownMethod.method ∉ ["initialize", "tools/list", "tools/call",
      "resources/list", "resources/read"]
    ∧ handleConnection sampleFs srvBase [some reqUnknownMethod, some reqCallMissing] =
        [errorResponse reqUnknownMethod.id (-32601) "Method not found",
         errorResponse reqCallMissing.id (-32602)
           "Tool execution failed: tool no_such_tool not found"] :=
  have h := unknown_method_error_and_loop_continues sampleFs srvBase reqUnknownMethod
    [some reqCallMissing] (by simp [reqUnknownMethod])
  ⟨by simp [reqUnknownMethod], by rw [h.2]; rfl⟩

/-- C10 counterexample: the claim says every tools/call request whose params
field is absent returns an Error with code -32602; but on a server whose
registry holds a tool under the empty name the zero-value params name hits
that tool and the dispatch answers with a result, not an error. -/
theorem nil_params_empty_name_tool_counterexample :
    reqCallNilParams.params = GoValue.vNull
    ∧ (handleRequest sampleFs srvEmptyNameTool reqCallNilParams).1.error = none
    ∧ (handleRequest sampleFs srvEmptyNameTool reqCallNilParams).1.result.isSome = true :=
  ⟨rfl, rfl, rfl⟩

/-- C10 (amended): when the params field is absent or not a JSON object, the
params decode to zero values (empty name, empty uri, no arguments), dispatch
still returns exactly one response, and provided nothing is registered under
the empty name or empty uri that response is an Error with code -32602. -/
theorem nil_params_zero_values_dispatch (fs : String → Except String String)
    (s : ServerState) (req : MCPRequest)
    (hp : ∀ fields, req.params ≠ GoValue.vObj fields) :
    decodeCallToolParams req.params = { name := "", arguments := [] }
    ∧ decodeReadResourceParams req.params = ""
    ∧ (req.method = "tools/call" → s.tools.lookup "" = none →
        (handleRequest fs s req).1 =
          errorResponse req.id (-32602)
            ("Tool execution failed: " ++ ("tool " ++ "" ++ " not found")))
    ∧ (req.method = "resources/read" → s.resources.lookup "" = none →
        (handleRequest fs s req).1 =
          errorResponse req.id (-32602) "Resource not found") := by
  have hdec1 : decodeCallToolParams req.params = { name := "", arguments := [] } := by
    cases h2 : req.params
    case vObj fields => exact absurd h2 (hp fields)
    all_goals rfl
  have hdec2 : decodeReadResourceParams req.params = "" := by
    cases h2 : req.params
    case vObj fields => exact absurd h2 (hp fields)
    all_goals rfl
  refine ⟨hdec1, hdec2, ?_, ?_⟩
  · intro hm hmiss
    have hexec : registryExecute s.tools (decodeCallToolParams req.params).name
        (decodeCallToolParams req.params).arguments =
          .error ("tool " ++ "" ++ " not found") := by
      unfold registryExecute
      rw [hdec1]
      simp only []
      rw [hmiss]
    rw [handleRequest_eq_callTool hm]
    simp only [handleCallTool, hexec]
  · intro hm hmiss
    rw [handleRequest_eq_readResource hm]
    simp only [handleReadResource, hdec2, hmiss]

/-- C10 witness: the tools/call request with absent params against the
standard server with nothing registered under the empty name. -/
theorem nil_params_zero_values_dispatch_witness :
    decodeCallToolParams reqCallNilParams.params = { name := "", arguments := [] }
    ∧ (handleRequest sampleFs srvBase reqCallNilParams).1 =
        errorResponse reqCallNilParams.id (-32602)
          ("Tool execution failed: " ++ ("tool " ++ "" ++ " not found"))
    ∧ (handleRequest sampleFs srvBase reqReadNilParams).1 =
        errorResponse reqReadNilParams.id (-32602) "Resource not found" :=
  have h1 := nil_params_zero_values_dispatch sampleFs srvBase reqCallNilParams
    (fun _ h2 => GoValue.noConfusion h2)
  have h2 := nil_params_zero_values_dispatch sampleFs srvBase reqReadNilParams
    (fun _ h3 => GoValue.noConfusion h3)
  ⟨h1.1, h1.2.2.1 rfl rfl, h2.2.2.2 rfl rfl⟩

end MCP
